import Mathlib

/-!
# sslsearch: the root command (`cmd/root.go`)

A shallow embedding of the package-level state of `cmd/root.go` (flag variables,
statistics counters, object pools, sentinel errors), of `init` and of `Execute`,
followed by the scan pipeline the specification describes around that state.
-/

namespace Sslsearch

/-! ## Machine integers and durations -/

/-- Two's-complement wrap of an integer into the range of Go's `int64`. -/
def wrapInt64 (x : Int) : Int := (x + 2 ^ 63) % 2 ^ 64 - 2 ^ 63

/-- Largest `int64`. -/
def maxInt64 : Int := 2 ^ 63 - 1

/-- Smallest `int64`. -/
def minInt64 : Int := -(2 ^ 63)

/-- The constant `time.Second`: a `time.Duration` counts nanoseconds in an `int64`. -/
def Second : Int := 1000000000

/-- The conversion `time.Duration(n)` of a Go `int` (64 bits wide on 64-bit targets). -/
def Duration (n : Int) : Int := wrapInt64 n

/-- Product of two `time.Duration` values: `int64` multiplication, which wraps. -/
def Duration.mul (a b : Int) : Int := wrapInt64 (a * b)

/-! ## Pooled objects -/

/-- The field of `tls.Config` that `root.go` sets (all other fields keep their zero value). -/
structure TlsConfig where
  InsecureSkipVerify : Bool
  deriving DecidableEq, Repr

/-- The field of `fasthttp.Client` that `root.go` sets: a possibly-nil `*tls.Config`. -/
structure FasthttpClient where
  TLSConfig : Option TlsConfig
  deriving DecidableEq, Repr

/-- The field of `net.Dialer` that `root.go` sets, in nanoseconds; `0` means no timeout. -/
structure Dialer where
  Timeout : Int
  deriving DecidableEq, Repr

/-- `httpClientPool.New`. -/
def httpClientPool.New (_ : Unit) : FasthttpClient :=
  { TLSConfig := some { InsecureSkipVerify := true } }

/-- `dialerPool.New`; the package variable `tcpTimeout` it reads is passed in. -/
def dialerPool.New (tcpTimeout : Int) : Dialer :=
  { Timeout := Duration.mul (Duration tcpTimeout) Second }

/-- `tlsConfigPool.New`. -/
def tlsConfigPool.New (_ : Unit) : TlsConfig :=
  { InsecureSkipVerify := true }

/-! ## Sentinel errors -/

/-- An `error` made by `fmt.Errorf` without `%w`: a pointer to a freshly allocated
`errorString`. `ptr` is the allocation, `msg` what `Error()` returns. Go's `==` on two
such errors compares the pointers. -/
structure GoError where
  ptr : Nat
  msg : String
  deriving DecidableEq, Repr

/-- `fmt.Errorf(msg)`: allocates the next free cell and returns the error with the
advanced allocation counter. -/
def fmtErrorf (next : Nat) (msg : String) : GoError × Nat :=
  (⟨next, msg⟩, next + 1)

/-- Go's `==` on two errors built by `fmt.Errorf`. -/
def GoError.same (a b : GoError) : Bool := a.ptr == b.ptr

/-- The five sentinel declarations of the `var` block, in source order, each allocating
through `fmtErrorf`. -/
def sentinelBlock : List GoError :=
  let a := fmtErrorf 0 "could not connect to remote host"
  let b := fmtErrorf a.2 "could not find TLS on remote port"
  let c := fmtErrorf b.2 "certificate details did not match requirement"
  let d := fmtErrorf c.2 "parent context cancelled"
  let e := fmtErrorf d.2 "error calculating JARM fingerprint"
  [a.1, b.1, c.1, d.1, e.1]

/-- `errConn`. -/
def errConn : GoError := sentinelBlock.getD 0 ⟨0, ""⟩

/-- `errNoTls`. -/
def errNoTls : GoError := sentinelBlock.getD 1 ⟨0, ""⟩

/-- `errNoMatch`. -/
def errNoMatch : GoError := sentinelBlock.getD 2 ⟨0, ""⟩

/-- `errCtxCancelled`. -/
def errCtxCancelled : GoError := sentinelBlock.getD 3 ⟨0, ""⟩

/-- `errJarmNotCalculated`. -/
def errJarmNotCalculated : GoError := sentinelBlock.getD 4 ⟨0, ""⟩

/-- The error kinds of the specification's taxonomy (section 7), in its words. -/
inductive ErrorKind where
  | ConnectionError
  | NoTLSError
  | NoMatchError
  | CancelledError
  | JarmNotCalculatedError
  deriving DecidableEq, Repr

/-- Every kind of the taxonomy. -/
def ErrorKind.all : List ErrorKind :=
  [.ConnectionError, .NoTLSError, .NoMatchError, .CancelledError, .JarmNotCalculatedError]

/-- The sentinel the specification assigns to each kind of its taxonomy. -/
def ErrorKind.sentinel : ErrorKind → GoError
  | .ConnectionError => errConn
  | .NoTLSError => errNoTls
  | .NoMatchError => errNoMatch
  | .CancelledError => errCtxCancelled
  | .JarmNotCalculatedError => errJarmNotCalculated

/-! ## Package state, `init` and `Execute` -/

/-- The package-level variables of `root.go` that hold configuration and statistics
(the logger, the lock and the pools apart). Go's `int` is modelled by `Int`. -/
structure Globals where
  debugFlag : Bool
  traceFlag : Bool
  keywordRegexString : String
  regionRegexString : String
  portsString : String
  outFileName : String
  outputOverwrite : Bool
  threadCount : Int
  cidrSuffixPerGoRoutine : Int
  consoleOut : Bool
  grabServerHeader : Bool
  grabJarmFingerprint : Bool
  serverHeaderThreadCount : Int
  jarmFingerptintThreadCount : Int
  cidrRangesToScan : Int
  cidrRangesScanned : Int
  totalIpsScanned : Int
  totalFindings : Int
  jarmRetryCount : Int
  tcpTimeout : Int
  deriving DecidableEq, Repr

/-- The state after the package's variable initialisers have run and before `init`:
the first `var` block leaves every variable at its zero value, the second block
assigns the counters, `jarmRetryCount` and `tcpTimeout`. -/
def varInitialisers : Globals :=
  { debugFlag := false
    traceFlag := false
    keywordRegexString := ""
    regionRegexString := ""
    portsString := ""
    outFileName := ""
    outputOverwrite := false
    threadCount := 0
    cidrSuffixPerGoRoutine := 0
    consoleOut := false
    grabServerHeader := false
    grabJarmFingerprint := false
    serverHeaderThreadCount := 0
    jarmFingerptintThreadCount := 0
    cidrRangesToScan := 0
    cidrRangesScanned := 0
    totalIpsScanned := 0
    totalFindings := 0
    jarmRetryCount := 3
    tcpTimeout := 10 }

/-- The `bool` variables a flag is bound to. -/
inductive BoolVar where
  | debugFlag | traceFlag | outputOverwrite | consoleOut | grabServerHeader
  | grabJarmFingerprint
  deriving DecidableEq, Repr

/-- The `string` variables a flag is bound to. -/
inductive StringVar where
  | keywordRegexString | regionRegexString | portsString | outFileName
  deriving DecidableEq, Repr

/-- The `int` variables a flag is bound to. -/
inductive IntVar where
  | threadCount | cidrSuffixPerGoRoutine | tcpTimeout | serverHeaderThreadCount
  | jarmRetryCount | jarmFingerptintThreadCount
  deriving DecidableEq, Repr

/-- One flag registration of `init`: the bound variable, the flag's name, its shorthand
(empty for the calls without one) and its default value. -/
inductive FlagReg where
  | boolVar (p : BoolVar) (name shorthand : String) (value : Bool)
  | stringVar (p : StringVar) (name shorthand : String) (value : String)
  | intVar (p : IntVar) (name shorthand : String) (value : Int)
  deriving DecidableEq, Repr

/-- The flag name of a registration. -/
def FlagReg.name : FlagReg → String
  | .boolVar _ n _ _ => n
  | .stringVar _ n _ _ => n
  | .intVar _ n _ _ => n

/-- Store through a `*bool`. -/
def BoolVar.store (p : BoolVar) (v : Bool) (g : Globals) : Globals :=
  match p with
  | .debugFlag => { g with debugFlag := v }
  | .traceFlag => { g with traceFlag := v }
  | .outputOverwrite => { g with outputOverwrite := v }
  | .consoleOut => { g with consoleOut := v }
  | .grabServerHeader => { g with grabServerHeader := v }
  | .grabJarmFingerprint => { g with grabJarmFingerprint := v }

/-- Store through a `*string`. -/
def StringVar.store (p : StringVar) (v : String) (g : Globals) : Globals :=
  match p with
  | .keywordRegexString => { g with keywordRegexString := v }
  | .regionRegexString => { g with regionRegexString := v }
  | .portsString => { g with portsString := v }
  | .outFileName => { g with outFileName := v }

/-- Store through a `*int`. -/
def IntVar.store (p : IntVar) (v : Int) (g : Globals) : Globals :=
  match p with
  | .threadCount => { g with threadCount := v }
  | .cidrSuffixPerGoRoutine => { g with cidrSuffixPerGoRoutine := v }
  | .tcpTimeout => { g with tcpTimeout := v }
  | .serverHeaderThreadCount => { g with serverHeaderThreadCount := v }
  | .jarmRetryCount => { g with jarmRetryCount := v }
  | .jarmFingerptintThreadCount => { g with jarmFingerptintThreadCount := v }

/-- What `BoolVar(P)`, `StringVarP` and `IntVar(P)` do to the bound variable when the
flag is defined: they store the default value in it. -/
def FlagReg.register (r : FlagReg) (g : Globals) : Globals :=
  match r with
  | .boolVar p _ _ v => p.store v g
  | .stringVar p _ _ v => p.store v g
  | .intVar p _ _ v => p.store v g

/-- The registrations `init` makes on `rootCmd.Flags()`, in source order. -/
def rootFlags : List FlagReg :=
  [ .boolVar .debugFlag "debug" "v" false,
    .boolVar .traceFlag "trace" "" false,
    .stringVar .keywordRegexString "keyword-regex" "k" ".*",
    .stringVar .regionRegexString "region-regex" "r" ".*",
    .stringVar .portsString "ports" "p" "443",
    .stringVar .outFileName "out" "o" "output.log",
    .boolVar .outputOverwrite "overwrite" "" false,
    .intVar .threadCount "threads" "t" 2000,
    .intVar .cidrSuffixPerGoRoutine "suffix" "" 4,
    .intVar .tcpTimeout "timeout" "" 10,
    .boolVar .consoleOut "console-out" "" false,
    .boolVar .grabServerHeader "server-header" "" false,
    .intVar .serverHeaderThreadCount "server-header-threads" "" 10,
    .boolVar .grabJarmFingerprint "jarm" "" false,
    .intVar .jarmRetryCount "jarm-retry-count" "" 3,
    .intVar .jarmFingerptintThreadCount "jarm-threads" "" 50 ]

/-- The function `init`: every registration runs in order on the package state. -/
def init (g : Globals) : Globals :=
  rootFlags.foldl (fun s r => r.register s) g

/-- The default an `int` flag of the given name was registered with. -/
def intDefault (name : String) : Option Int :=
  match rootFlags.find? (fun r => r.name == name) with
  | some (.intVar _ _ _ v) => some v
  | _ => none

/-- How a call of `Execute` ends: it returns to its caller, or `os.Exit` ends the
process with a status. -/
inductive Outcome where
  | returned
  | exited (code : Int)
  deriving DecidableEq, Repr

/-- The function `Execute`; the result of `rootCmd.Execute()` is passed in (`none` is
a nil error). -/
def Execute (err : Option GoError) : Outcome :=
  match err with
  | some _ => .exited 1
  | none => .returned

/-- The status of a process whose `main` ends with the call of `Execute`: the code
given to `os.Exit`, or 0 when `main` returns. -/
def Outcome.status : Outcome → Int
  | .returned => 0
  | .exited c => c

/-! ## CIDR scheduler (specification sections 3 and 4.1) -/

/-- Modelled from the spec: the `CIDRBlock` of section 3, a base address and a prefix
length. The scheduler that consumes it is not part of `root.go`, which only declares
`cidrSuffixPerGoRoutine`. Addresses are numbers; their width in bits (32 or 128) is a
parameter of the operations below. -/
structure CIDRBlock where
  base : Nat
  prefixLength : Nat
  deriving DecidableEq, Repr

/-- Modelled from the spec: the `SubRange` of section 3, a base address and a suffix
length; it stands for the `2 ^ suffix` addresses from `base` on. The scheduler that
builds it is not part of `root.go`. -/
structure SubRange where
  base : Nat
  suffix : Nat
  deriving DecidableEq, Repr

/-- Modelled from the spec: the host-bit count of a block, the address bits its prefix
leaves free (the scheduler is not part of `root.go`). -/
def CIDRBlock.hostBits (bits : Nat) (B : CIDRBlock) : Nat := bits - B.prefixLength

/-- Modelled from the spec: the first address of a block, its base with the host bits
cleared (the scheduler is not part of `root.go`). -/
def CIDRBlock.first (bits : Nat) (B : CIDRBlock) : Nat :=
  B.base / 2 ^ B.hostBits bits * 2 ^ B.hostBits bits

/-- Modelled from the spec: the addresses of a block in ascending order (the scheduler
is not part of `root.go`). -/
def CIDRBlock.addresses (bits : Nat) (B : CIDRBlock) : List Nat :=
  (List.range (2 ^ B.hostBits bits)).map (fun j => B.first bits + j)

/-- Modelled from the spec: whether an address lies in a block (the scheduler is not
part of `root.go`). -/
def CIDRBlock.contains (bits : Nat) (B : CIDRBlock) (a : Nat) : Bool :=
  decide (B.first bits ≤ a) && decide (a < B.first bits + 2 ^ B.hostBits bits)

/-- Modelled from the spec: the addresses a worker iterates for one sub-range, in
ascending order (the scheduler is not part of `root.go`). -/
def SubRange.addresses (r : SubRange) : List Nat :=
  (List.range (2 ^ r.suffix)).map (fun j => r.base + j)

/-- Modelled from the spec: whether an address lies in a sub-range (the scheduler is
not part of `root.go`). -/
def SubRange.contains (r : SubRange) (a : Nat) : Bool :=
  decide (r.base ≤ a) && decide (a < r.base + 2 ^ r.suffix)

/-- Modelled from the spec: the partition step of the CIDR scheduler, which is not part
of `root.go`. A block is cut into sub-ranges of `2 ^ suffix` addresses; a suffix larger
than the block's host-bit count is clamped to it, so that the whole block is one
sub-range. The suffix is a number of bits. -/
def subRanges (bits : Nat) (B : CIDRBlock) (suffix : Nat) : List SubRange :=
  let h := B.hostBits bits
  let s := min suffix h
  (List.range (2 ^ (h - s))).map (fun i => { base := B.first bits + i * 2 ^ s, suffix := s })

/-- Modelled from the spec: the addresses the workers visit for one block, in dispatch
order: each sub-range in turn, each address of it in turn (the scheduler is not part of
`root.go`). -/
def visited (bits : Nat) (B : CIDRBlock) (suffix : Nat) : List Nat :=
  ((subRanges bits B suffix).map SubRange.addresses).flatten

/-! ## TLS probe and match engine (specification section 4.2) -/

/-- Modelled from the spec: the `ScanTarget` of section 3 (the probe engine is not part
of `root.go`). -/
structure ScanTarget where
  ip : Nat
  port : Nat
  deriving DecidableEq, Repr

/-- Modelled from the spec: the `CertificateInfo` of section 3 (the probe engine is not
part of `root.go`). -/
structure CertificateInfo where
  subject : String
  SANs : List String
  deriving DecidableEq, Repr

/-- Modelled from the spec: the `MatchResult` of section 3 (the probe engine is not part
of `root.go`). -/
structure MatchResult where
  target : ScanTarget
  certificate : CertificateInfo
  matchedKeyword : String
  matchedRegion : String
  timestamp : Nat
  deriving DecidableEq, Repr

/-- Modelled from the spec: a compiled pattern, as the decision it makes on a string
(the regular-expression engine is a library, the probe engine is not part of
`root.go`). -/
abbrev Pattern := String → Bool

/-- Modelled from the spec: what the outside world answers to one probe, the probe
engine not being part of `root.go`: whether the TCP dial with the given timeout
succeeds, the leaf certificate the handshake presents (`none`: no TLS), whether the
shared cancellation signal fires mid-probe, the region identifier derived from a
certificate's fields, and the clock. -/
structure ProbeWorld where
  connect : ScanTarget → Int → Bool
  handshake : ScanTarget → Option CertificateInfo
  cancelled : Bool
  regionOf : CertificateInfo → String
  now : Nat

/-- Modelled from the spec: step 4 of the probe, keyword half: the pattern is evaluated
against the subject and the SANs and matches if it matches any of them (the probe
engine is not part of `root.go`). -/
def keywordMatch (keywordPattern : Pattern) (cert : CertificateInfo) : Option String :=
  (cert.subject :: cert.SANs).find? keywordPattern

/-- Modelled from the spec: step 4 of the probe, region half: the pattern is evaluated
against the identifier derived from the certificate's fields (the probe engine is not
part of `root.go`). -/
def regionMatch (w : ProbeWorld) (regionPattern : Pattern) (cert : CertificateInfo) :
    Option String :=
  if regionPattern (w.regionOf cert) then some (w.regionOf cert) else none

/-- Modelled from the spec: steps 3 and 4 of the probe of section 4.2, which is not part
of `root.go`: the names of the leaf certificate are extracted and both filters are
evaluated; both must match for a result, otherwise `errNoMatch`. -/
def evaluateFilters (w : ProbeWorld) (target : ScanTarget)
    (keywordPattern regionPattern : Pattern) (cert : CertificateInfo) :
    Except GoError MatchResult :=
  match keywordMatch keywordPattern cert, regionMatch w regionPattern cert with
  | some k, some r =>
    .ok { target := target, certificate := cert, matchedKeyword := k,
          matchedRegion := r, timestamp := w.now }
  | _, _ => .error errNoMatch

/-- Modelled from the spec: the probe of section 4.2, which is not part of `root.go`.
Step 1 dials (failure: `errConn`), step 2 performs the handshake (failure or no TLS:
`errNoTls`), step 6 aborts with `errCtxCancelled` before steps 3 and 4 when the
cancellation signal fired, and otherwise steps 3 and 4 evaluate the filters on the
certificate. -/
def Probe (w : ProbeWorld) (target : ScanTarget) (dialTimeout : Int)
    (keywordPattern regionPattern : Pattern) : Except GoError MatchResult :=
  if w.connect target dialTimeout then
    match w.handshake target with
    | none => .error errNoTls
    | some cert =>
      if w.cancelled then .error errCtxCancelled
      else evaluateFilters w target keywordPattern regionPattern cert
  else .error errConn

/-! ## JARM fingerprinter (specification section 4.4) -/

/-- Modelled from the spec: one attempt of the JARM fingerprinter, which is not part of
`root.go`. The attempt ran the fixed probe sequence and got one response per probe
(`none`: that probe failed). Any failed probe fails the attempt; otherwise the ordered
responses are aggregated and hashed. -/
def jarmAttempt (hash : List String → String) (responses : List (Option String)) :
    Option String :=
  if responses.all Option.isSome then some (hash (responses.filterMap id)) else none

/-- Modelled from the spec: the retry loop of the JARM fingerprinter, which is not part
of `root.go`: attempt number `k` is made while `remaining` attempts are left; the first
attempt that succeeds gives the result, and when none is left the result is
`errJarmNotCalculated`. -/
def jarmLoop (hash : List String → String) (attempts : Nat → List (Option String)) :
    Nat → Nat → Except GoError String
  | 0, _ => .error errJarmNotCalculated
  | remaining + 1, k =>
    match jarmAttempt hash (attempts k) with
    | some fingerprint => .ok fingerprint
    | none => jarmLoop hash attempts remaining (k + 1)

/-- Modelled from the spec: the JARM enrichment of section 4.4, which is not part of
`root.go`: the whole probe sequence is attempted up to `jarmRetryCount` times, attempts
being numbered from 1; `attempts k` is what the server answers in attempt `k`. -/
def jarmFingerprint (hash : List String → String) (jarmRetryCount : Int)
    (attempts : Nat → List (Option String)) : Except GoError String :=
  jarmLoop hash attempts jarmRetryCount.toNat 1

/-! ## Concrete inputs -/

/-- The block `10.0.0.0/30` of the specification's scenario, as an IPv4 block. -/
def blockTen30 : CIDRBlock := { base := 167772160, prefixLength := 30 }

/-- A target inside `blockTen30`: `10.0.0.1:443`. -/
def targetTen1 : ScanTarget := { ip := 167772161, port := 443 }

/-- A certificate for a shop host with one alternative name. -/
def shopCert : CertificateInfo :=
  { subject := "shop.example.com", SANs := ["www.example.com"] }

/-- A world where `targetTen1` answers with `shopCert` in region `us-east-1` and the
probe runs to its end. -/
def quietWorld : ProbeWorld :=
  { connect := fun _ _ => true
    handshake := fun _ => some shopCert
    cancelled := false
    regionOf := fun _ => "us-east-1"
    now := 0 }

/-- The pattern `.*`, which matches every string. -/
def matchAll : Pattern := fun _ => true

/-- A pattern that matches only the region `eu-west-1`. -/
def onlyEuWest : Pattern := fun s => s == "eu-west-1"

/-- A stand-in for the fingerprint hash: the responses joined. -/
def joinHash : List String → String := fun rs => String.join rs

/-- Three attempts: the first two lose a probe, the third gets both responses. -/
def twoFailuresThenSuccess : Nat → List (Option String)
  | 3 => [some "c02b", some "0303"]
  | _ => [some "c02b", none]

/-! ## Pools -/

/-- C1: every object built by `tlsConfigPool.New` has `InsecureSkipVerify` set, and every
client built by `httpClientPool.New` has a non-nil `TLSConfig` whose
`InsecureSkipVerify` is set. -/
theorem pooled_tls_skips_verification (u : Unit) :
    (tlsConfigPool.New u).InsecureSkipVerify = true ∧
    ∃ c, (httpClientPool.New u).TLSConfig = some c ∧ c.InsecureSkipVerify = true :=
  ⟨rfl, ⟨{ InsecureSkipVerify := true }, rfl, rfl⟩⟩

/-- An integer inside the `int64` range is its own wrap. -/
theorem wrapInt64_of_range (x : Int) (lo : -9223372036854775808 ≤ x)
    (hi : x ≤ 9223372036854775807) : wrapInt64 x = x := by
  unfold wrapInt64
  omega

/-- A wrapped integer lies in the `int64` range. -/
theorem wrapInt64_range (x : Int) :
    -9223372036854775808 ≤ wrapInt64 x ∧ wrapInt64 x ≤ 9223372036854775807 := by
  unfold wrapInt64
  omega

/-- The dialer's timeout is the configured number of seconds as long as the product
stays inside `int64`. -/
theorem dialer_timeout_exact (t : Int) (lo : -9223372036 ≤ t) (hi : t ≤ 9223372036) :
    (dialerPool.New t).Timeout = t * 1000000000 := by
  have h1 : wrapInt64 t = t := wrapInt64_of_range t (by omega) (by omega)
  have h2 : wrapInt64 (t * 1000000000) = t * 1000000000 :=
    wrapInt64_of_range _ (by omega) (by omega)
  simp only [dialerPool.New, Duration.mul, Duration, Second, h1, h2]

/-- C2, as stated, fails: with `--timeout 0` the dialer is built with `Timeout = 0`,
which `net.Dialer` reads as no timeout, so the timeout is not strictly positive for
every integer setting. -/
theorem dial_timeout_zero_not_positive :
    (dialerPool.New 0).Timeout = 0 ∧ ¬ ∀ t : Int, 0 < (dialerPool.New t).Timeout := by
  have h0 : (dialerPool.New 0).Timeout = 0 := by decide
  refine ⟨h0, fun h => ?_⟩
  have := h 0
  omega

/-- C2, amended: for every setting `t` of `tcpTimeout` whose seconds fit a duration
(`-9223372036 ≤ t ≤ 9223372036`), the constructed dialer's `Timeout` is strictly
positive exactly when `t ≥ 1`. -/
theorem dial_timeout_positive_iff (t : Int) (lo : -9223372036 ≤ t)
    (hi : t ≤ 9223372036) : 0 < (dialerPool.New t).Timeout ↔ 1 ≤ t := by
  rw [dialer_timeout_exact t lo hi]
  omega

/-- C2, amended, at the default `--timeout 10`: the dial is bounded. -/
theorem dial_timeout_positive_iff_witness :
    (-9223372036 : Int) ≤ 10 ∧ (10 : Int) ≤ 9223372036 ∧
      (0 < (dialerPool.New 10).Timeout ↔ (1 : Int) ≤ 10) :=
  ⟨by decide, by decide, dial_timeout_positive_iff 10 (by decide) (by decide)⟩

/-- C3, as stated, fails: `9223372037` is a Go `int`, and `9223372037` seconds do not
fit an `int64` of nanoseconds, so the product wraps to a negative duration. -/
theorem dial_timeout_wraps_at_9223372037 :
    minInt64 ≤ 9223372037 ∧ 9223372037 ≤ maxInt64 ∧
      (dialerPool.New 9223372037).Timeout = -9223372036709551616 ∧
      (dialerPool.New 9223372037).Timeout ≠ 9223372037 * 1000000000 := by
  decide

/-- C3, amended: for every integer value `t` of `tcpTimeout`, the constructed dialer's
`Timeout` is exactly `t` seconds (`t * 1000000000` nanoseconds, no wrap-around) if and
only if `-9223372036 ≤ t ≤ 9223372036`, and then `t` seconds lie inside the `int64`
range; the default 10, as initialised and as registered by `init`, gives 10 seconds. -/
theorem dial_timeout_seconds (t : Int) :
    ((dialerPool.New t).Timeout = t * 1000000000 ↔ -9223372036 ≤ t ∧ t ≤ 9223372036) ∧
      (-9223372036 ≤ t ∧ t ≤ 9223372036 →
        minInt64 ≤ t * 1000000000 ∧ t * 1000000000 ≤ maxInt64) ∧
      (dialerPool.New varInitialisers.tcpTimeout).Timeout = 10 * Second ∧
      (dialerPool.New (init varInitialisers).tcpTimeout).Timeout = 10 * Second := by
  refine ⟨⟨fun h => ?_, fun h => dialer_timeout_exact t h.1 h.2⟩, fun h => ?_,
    by decide, by decide⟩
  · have hr := wrapInt64_range (wrapInt64 t * 1000000000)
    simp only [dialerPool.New, Duration.mul, Duration, Second] at h
    rw [h] at hr
    omega
  · unfold minInt64 maxInt64
    omega

/-- C3, amended, at the default `t = 10`: the timeout is 10 seconds. -/
theorem dial_timeout_seconds_witness :
    (dialerPool.New 10).Timeout = 10 * 1000000000 :=
  (dial_timeout_seconds 10).1.2 ⟨by decide, by decide⟩

/-! ## `Execute` -/

/-- C4: `Execute` ends the process through `os.Exit(1)`, a non-zero status, exactly when
`rootCmd.Execute()` returned an error; with a nil error it returns without exiting and
the process status is zero. -/
theorem execute_exit_iff_error (err : Option GoError) :
    (Execute err = .exited 1 ↔ err ≠ none) ∧
      ((∃ c, Execute err = .exited c) ↔ err ≠ none) ∧
      ((Execute err).status ≠ 0 ↔ err ≠ none) ∧
      (Execute err = .returned ↔ err = none) ∧
      Execute none = .returned ∧ (Execute none).status = 0 := by
  cases err <;> simp [Execute, Outcome.status]

/-! ## Sentinel errors -/

/-- C5: the declared sentinels are exactly the images of the five kinds of the taxonomy,
one per kind, under the mapping the specification names, and they are pairwise
distinct: no two are the same error value and no two carry the same message. -/
theorem sentinels_one_per_kind_distinct :
    ErrorKind.all.map ErrorKind.sentinel = sentinelBlock ∧
      (∀ k : ErrorKind, k ∈ ErrorKind.all) ∧ ErrorKind.all.Nodup ∧
      sentinelBlock = [errConn, errNoTls, errNoMatch, errCtxCancelled,
        errJarmNotCalculated] ∧
      sentinelBlock.Pairwise (fun a b => a ≠ b ∧ a.same b = false ∧ a.msg ≠ b.msg) ∧
      Function.Injective ErrorKind.sentinel ∧
      Function.Injective (fun k => (ErrorKind.sentinel k).msg) := by
  refine ⟨by decide, ?_, by decide, by decide, by decide, ?_, ?_⟩
  · intro k
    cases k <;> decide
  · intro a b h
    cases a <;> cases b <;> first | rfl | exact absurd h (by decide)
  · intro a b h
    cases a <;> cases b <;> first | rfl | exact absurd h (by decide)

/-! ## Defaults and initial state -/

/-- C9: after `init`, with no flag supplied, the configuration holds the registered
defaults whatever the variables held before: both regexes `.*`, ports `443`, output
file `output.log`, 2000 threads, suffix 4 (16 addresses per goroutine), timeout 10,
3 JARM retries, 10 server-header threads, 50 JARM threads, every boolean false; and the
initialisers of `jarmRetryCount` and `tcpTimeout` equal the defaults of their flags. -/
theorem init_gives_documented_defaults (g : Globals) :
    (init g).keywordRegexString = ".*" ∧ (init g).regionRegexString = ".*" ∧
      (init g).portsString = "443" ∧ (init g).outFileName = "output.log" ∧
      (init g).threadCount = 2000 ∧ (init g).cidrSuffixPerGoRoutine = 4 ∧
      2 ^ (init g).cidrSuffixPerGoRoutine.toNat = 16 ∧
      (init g).tcpTimeout = 10 ∧ (init g).jarmRetryCount = 3 ∧
      (init g).serverHeaderThreadCount = 10 ∧ (init g).jarmFingerptintThreadCount = 50 ∧
      (init g).debugFlag = false ∧ (init g).traceFlag = false ∧
      (init g).outputOverwrite = false ∧ (init g).consoleOut = false ∧
      (init g).grabServerHeader = false ∧ (init g).grabJarmFingerprint = false ∧
      intDefault "jarm-retry-count" = some varInitialisers.jarmRetryCount ∧
      varInitialisers.jarmRetryCount = 3 ∧
      intDefault "timeout" = some varInitialisers.tcpTimeout ∧
      varInitialisers.tcpTimeout = 10 ∧
      init varInitialisers =
        { varInitialisers with
          keywordRegexString := ".*", regionRegexString := ".*", portsString := "443",
          outFileName := "output.log", threadCount := 2000, cidrSuffixPerGoRoutine := 4,
          serverHeaderThreadCount := 10, jarmFingerptintThreadCount := 50 } := by
  cases g
  refine ⟨rfl, rfl, rfl, rfl, rfl, rfl, rfl, rfl, rfl, rfl, rfl, rfl, rfl, rfl, rfl, rfl,
    rfl, ?_, rfl, ?_, rfl, rfl⟩ <;> decide

/-- C10: in the initial state, before and after `init`, the four statistics counters are
zero, so `cidrRangesScanned ≤ cidrRangesToScan` and no counter is negative. -/
theorem initial_counters_zero :
    varInitialisers.cidrRangesToScan = 0 ∧ varInitialisers.cidrRangesScanned = 0 ∧
      varInitialisers.totalIpsScanned = 0 ∧ varInitialisers.totalFindings = 0 ∧
      (init varInitialisers).cidrRangesToScan = 0 ∧
      (init varInitialisers).cidrRangesScanned = 0 ∧
      (init varInitialisers).totalIpsScanned = 0 ∧
      (init varInitialisers).totalFindings = 0 ∧
      varInitialisers.cidrRangesScanned ≤ varInitialisers.cidrRangesToScan ∧
      0 ≤ varInitialisers.cidrRangesToScan ∧ 0 ≤ varInitialisers.cidrRangesScanned ∧
      0 ≤ varInitialisers.totalIpsScanned ∧ 0 ≤ varInitialisers.totalFindings := by
  decide

/-! ## CIDR scheduler -/

/-- Consecutive chunks of `m` addresses, `n` of them, are the `n * m` addresses in
order. -/
theorem flatten_chunks (f m : Nat) (n : Nat) :
    ((List.range n).map
        (fun i => (List.range m).map (fun j => f + i * m + j))).flatten =
      (List.range (n * m)).map (fun j => f + j) := by
  induction n with
  | zero => simp
  | succ n ih =>
    rw [List.range_succ, List.map_append, List.flatten_append, ih, Nat.succ_mul,
      List.range_add, List.map_append, List.map_map]
    simp [Function.comp, Nat.add_assoc]

/-- The clamped sub-range size times the number of sub-ranges is the block size. -/
theorem chunk_count_mul (h S : Nat) : 2 ^ (h - min S h) * 2 ^ min S h = 2 ^ h := by
  rw [← Nat.pow_add]
  congr 1
  omega

/-- The sub-ranges of a block, visited in order, are the block's addresses in order. -/
theorem visited_eq_addresses (bits : Nat) (B : CIDRBlock) (S : Nat) :
    visited bits B S = B.addresses bits := by
  have h := flatten_chunks (B.first bits) (2 ^ min S (B.hostBits bits))
    (2 ^ (B.hostBits bits - min S (B.hostBits bits)))
  rw [chunk_count_mul] at h
  unfold visited subRanges CIDRBlock.addresses
  rw [List.map_map]
  exact h

/-- A block's address list has no repetition. -/
theorem addresses_nodup (bits : Nat) (B : CIDRBlock) : (B.addresses bits).Nodup := by
  unfold CIDRBlock.addresses
  exact (List.nodup_range _).map (fun a b h => by simpa using h)

/-- Membership in a block's address list is the block's membership test. -/
theorem mem_addresses_iff (bits : Nat) (B : CIDRBlock) (a : Nat) :
    a ∈ B.addresses bits ↔ B.contains bits a = true := by
  simp only [CIDRBlock.addresses, CIDRBlock.contains, List.mem_map, List.mem_range,
    Bool.and_eq_true, decide_eq_true_eq]
  constructor
  · rintro ⟨j, hj, rfl⟩
    omega
  · rintro ⟨h1, h2⟩
    exact ⟨a - B.first bits, by omega, by omega⟩

/-- Membership in a sub-range's address list is the sub-range's membership test. -/
theorem mem_subRange_addresses_iff (r : SubRange) (a : Nat) :
    a ∈ r.addresses ↔ r.contains a = true := by
  simp only [SubRange.addresses, SubRange.contains, List.mem_map, List.mem_range,
    Bool.and_eq_true, decide_eq_true_eq]
  constructor
  · rintro ⟨j, hj, rfl⟩
    omega
  · rintro ⟨h1, h2⟩
    exact ⟨a - r.base, by omega, by omega⟩

/-- C6: for every address width, block and suffix, the sub-ranges generated from the
block partition it exactly: visited in order they are the block's addresses, no address
is visited twice, each address of the block is visited once and no other address is,
the sub-ranges are pairwise disjoint and cover the block, each holds `2 ^ suffix`
addresses when the suffix is within the host-bit count, and a suffix above the host-bit
count gives the whole block as the single sub-range. -/
theorem subRanges_partition (bits : Nat) (B : CIDRBlock) (S : Nat) :
    visited bits B S = B.addresses bits ∧
      (visited bits B S).Nodup ∧
      (∀ a, (visited bits B S).count a = if B.contains bits a = true then 1 else 0) ∧
      (subRanges bits B S).Pairwise
        (fun r q => ∀ a, ¬ (r.contains a = true ∧ q.contains a = true)) ∧
      (∀ a, B.contains bits a = true ↔ ∃ r ∈ subRanges bits B S, r.contains a = true) ∧
      (∀ r ∈ subRanges bits B S, r.suffix = min S (B.hostBits bits) ∧
        r.addresses.length = 2 ^ min S (B.hostBits bits)) ∧
      (S ≤ B.hostBits bits →
        (subRanges bits B S).length = 2 ^ (B.hostBits bits - S) ∧
        ∀ r ∈ subRanges bits B S, r.addresses.length = 2 ^ S) ∧
      (B.hostBits bits < S →
        subRanges bits B S = [{ base := B.first bits, suffix := B.hostBits bits }]) := by
  have hv := visited_eq_addresses bits B S
  have hn : (visited bits B S).Nodup := hv ▸ addresses_nodup bits B
  have hsize : ∀ r ∈ subRanges bits B S, r.suffix = min S (B.hostBits bits) ∧
      r.addresses.length = 2 ^ min S (B.hostBits bits) := by
    intro r hr
    simp only [subRanges, List.mem_map, List.mem_range] at hr
    obtain ⟨i, -, rfl⟩ := hr
    simp [SubRange.addresses]
  refine ⟨hv, hn, ?_, ?_, ?_, hsize, ?_, ?_⟩
  · intro a
    by_cases h : B.contains bits a = true
    · rw [if_pos h]
      exact List.count_eq_one_of_mem hn (hv ▸ (mem_addresses_iff bits B a).2 h)
    · rw [if_neg h]
      exact List.count_eq_zero_of_not_mem
        (fun hm => h ((mem_addresses_iff bits B a).1 (hv ▸ hm)))
  · have hp := (List.nodup_flatten.1 hn).2
    rw [List.pairwise_map] at hp
    refine hp.imp ?_
    intro r q hd a ha
    exact hd ((mem_subRange_addresses_iff r a).2 ha.1)
      ((mem_subRange_addresses_iff q a).2 ha.2)
  · intro a
    rw [← mem_addresses_iff, ← hv]
    simp only [visited, List.mem_flatten, List.mem_map]
    constructor
    · rintro ⟨l, ⟨r, hr, rfl⟩, ha⟩
      exact ⟨r, hr, (mem_subRange_addresses_iff r a).1 ha⟩
    · rintro ⟨r, hr, ha⟩
      exact ⟨r.addresses, ⟨r, hr, rfl⟩, (mem_subRange_addresses_iff r a).2 ha⟩
  · intro hS
    have hmin : min S (B.hostBits bits) = S := Nat.min_eq_left hS
    refine ⟨by simp [subRanges, hmin], ?_⟩
    intro r hr
    rw [(hsize r hr).2, hmin]
  · intro hS
    have hmin : min S (B.hostBits bits) = B.hostBits bits :=
      Nat.min_eq_right (Nat.le_of_lt hS)
    have hr : List.range 1 = [0] := rfl
    simp only [subRanges, hmin, Nat.sub_self, Nat.pow_zero, hr, List.map_cons,
      List.map_nil, Nat.zero_mul, Nat.add_zero]

/-- C6 at the specification's scenario `10.0.0.0/30`: suffix 1 gives two sub-ranges of
two addresses, suffix 2 and suffix 9 give the whole block as one sub-range, and the
four addresses are visited once each. -/
theorem subRanges_partition_witness :
    visited 32 blockTen30 1 = [167772160, 167772161, 167772162, 167772163] ∧
      subRanges 32 blockTen30 1 =
        [{ base := 167772160, suffix := 1 }, { base := 167772162, suffix := 1 }] ∧
      subRanges 32 blockTen30 2 = [{ base := 167772160, suffix := 2 }] ∧
      subRanges 32 blockTen30 9 = [{ base := 167772160, suffix := 2 }] :=
  ⟨(subRanges_partition 32 blockTen30 1).1.trans (by decide), by decide, by decide,
    by decide⟩

/-! ## Probe and match -/

/-- Steps 3 and 4 end in `errNoMatch` as soon as one of the two filters fails. -/
theorem evaluateFilters_fail (w : ProbeWorld) (target : ScanTarget) (kw rg : Pattern)
    (cert : CertificateInfo)
    (hf : keywordMatch kw cert = none ∨ regionMatch w rg cert = none) :
    evaluateFilters w target kw rg cert = .error errNoMatch := by
  unfold evaluateFilters
  rcases hf with hk | hr
  · rw [hk]
  · rw [hr]
    cases keywordMatch kw cert <;> rfl

/-- A probe that connects and gets a certificate ends as step 6 or steps 3 and 4 end. -/
theorem probe_of_certificate (w : ProbeWorld) (target : ScanTarget) (dialTimeout : Int)
    (kw rg : Pattern) (cert : CertificateInfo)
    (hc : w.connect target dialTimeout = true) (hh : w.handshake target = some cert) :
    Probe w target dialTimeout kw rg =
      if w.cancelled = true then .error errCtxCancelled
      else evaluateFilters w target kw rg cert := by
  unfold Probe
  rw [if_pos hc, hh]

/-- C7: for every target that connects and presents a certificate whose subject/SAN
matches the keyword pattern while its region fails the region pattern, or whose region
matches while no subject/SAN matches the keyword pattern, the filter step yields
`errNoMatch` and no MatchResult, the probe produces no MatchResult, and the probe that
evaluates the filters yields `errNoMatch`. -/
theorem probe_requires_both_filters (w : ProbeWorld) (target : ScanTarget)
    (dialTimeout : Int) (kw rg : Pattern) (cert : CertificateInfo)
    (hc : w.connect target dialTimeout = true) (hh : w.handshake target = some cert)
    (hf : ((∃ n ∈ cert.subject :: cert.SANs, kw n = true) ∧ rg (w.regionOf cert) = false) ∨
      (rg (w.regionOf cert) = true ∧ ∀ n ∈ cert.subject :: cert.SANs, kw n = false)) :
    evaluateFilters w target kw rg cert = .error errNoMatch ∧
      (∀ m, evaluateFilters w target kw rg cert ≠ .ok m) ∧
      (∀ m, Probe w target dialTimeout kw rg ≠ .ok m) ∧
      (w.cancelled = false → Probe w target dialTimeout kw rg = .error errNoMatch) := by
  have hf2 : keywordMatch kw cert = none ∨ regionMatch w rg cert = none := by
    rcases hf with ⟨-, hr⟩ | ⟨-, hk⟩
    · right
      simp [regionMatch, hr]
    · left
      unfold keywordMatch
      rw [List.find?_eq_none]
      intro n hn
      simp [hk n hn]
  have he := evaluateFilters_fail w target kw rg cert hf2
  have hp := probe_of_certificate w target dialTimeout kw rg cert hc hh
  rw [he] at hp
  refine ⟨he, ?_, ?_, ?_⟩
  · intro m h
    rw [he] at h
    cases h
  · intro m h
    rw [hp] at h
    by_cases hx : w.cancelled = true
    · rw [if_pos hx] at h
      cases h
    · rw [if_neg hx] at h
      cases h
  · intro hx
    rw [hp, hx]
    rfl

/-- C7 at `10.0.0.1:443`: the keyword pattern matches the certificate, the region
pattern does not match its region, and the probe ends in `errNoMatch`. -/
theorem probe_requires_both_filters_witness :
    quietWorld.connect targetTen1 10 = true ∧
      quietWorld.handshake targetTen1 = some shopCert ∧
      matchAll shopCert.subject = true ∧
      onlyEuWest (quietWorld.regionOf shopCert) = false ∧
      Probe quietWorld targetTen1 10 matchAll onlyEuWest = .error errNoMatch :=
  ⟨rfl, rfl, rfl, by decide,
    (probe_requires_both_filters quietWorld targetTen1 10 matchAll onlyEuWest shopCert rfl
      rfl (Or.inl ⟨⟨shopCert.subject, by simp, rfl⟩, by decide⟩)).2.2.2 rfl⟩

/-! ## JARM retries -/

/-- The loop returns the first successful attempt when it comes before the attempts run
out. -/
theorem jarmLoop_first_success (hash : List String → String)
    (attempts : Nat → List (Option String)) (f : String) :
    ∀ (d remaining k : Nat), d < remaining →
      (∀ j, k ≤ j → j < k + d → jarmAttempt hash (attempts j) = none) →
      jarmAttempt hash (attempts (k + d)) = some f →
      jarmLoop hash attempts remaining k = .ok f := by
  intro d
  induction d with
  | zero =>
    intro remaining k hlt _ hok
    obtain ⟨r, rfl⟩ : ∃ r, remaining = r + 1 := ⟨remaining - 1, by omega⟩
    rw [Nat.add_zero] at hok
    simp only [jarmLoop, hok]
  | succ d ih =>
    intro remaining k hlt hfail hok
    obtain ⟨r, rfl⟩ : ∃ r, remaining = r + 1 := ⟨remaining - 1, by omega⟩
    have h0 : jarmAttempt hash (attempts k) = none := hfail k (Nat.le_refl k) (by omega)
    simp only [jarmLoop, h0]
    apply ih r (k + 1) (by omega)
    · intro j h1 h2
      exact hfail j (by omega) (by omega)
    · have : k + 1 + d = k + (d + 1) := by omega
      rw [this]
      exact hok

/-- The loop ends in `errJarmNotCalculated` when every attempt it makes fails. -/
theorem jarmLoop_all_fail (hash : List String → String)
    (attempts : Nat → List (Option String)) :
    ∀ (remaining k : Nat),
      (∀ j, k ≤ j → j < k + remaining → jarmAttempt hash (attempts j) = none) →
      jarmLoop hash attempts remaining k = .error errJarmNotCalculated := by
  intro remaining
  induction remaining with
  | zero =>
    intro k _
    rfl
  | succ r ih =>
    intro k hfail
    have h0 : jarmAttempt hash (attempts k) = none := hfail k (Nat.le_refl k) (by omega)
    simp only [jarmLoop, h0]
    exact ih (k + 1) (fun j h1 h2 => hfail j (by omega) (by omega))

/-- C8: with a retry count `n ≥ 1`, if attempt `k ≤ n` is the first to succeed, the result
is the fingerprint of attempt `k` and not `errJarmNotCalculated`; if all `n` attempts
fail, the result is `errJarmNotCalculated`; with `n = 3`, two failures and then a
success give the third attempt's hash. -/
theorem jarm_retries_whole_sequence (hash : List String → String) (n : Int)
    (attempts : Nat → List (Option String)) (hn : 1 ≤ n) :
    (∀ (k : Nat) (f : String), 1 ≤ k → (k : Int) ≤ n →
        (∀ j, 1 ≤ j → j < k → jarmAttempt hash (attempts j) = none) →
        jarmAttempt hash (attempts k) = some f →
        jarmFingerprint hash n attempts = .ok f ∧
          jarmFingerprint hash n attempts ≠ .error errJarmNotCalculated) ∧
      ((∀ j : Nat, 1 ≤ j → (j : Int) ≤ n → jarmAttempt hash (attempts j) = none) →
        jarmFingerprint hash n attempts = .error errJarmNotCalculated) ∧
      (∀ f : String, jarmAttempt hash (attempts 1) = none →
        jarmAttempt hash (attempts 2) = none →
        jarmAttempt hash (attempts 3) = some f →
        jarmFingerprint hash 3 attempts = .ok f) := by
  refine ⟨?_, ?_, ?_⟩
  · intro k f hk hkn hfail hok
    have hres : jarmFingerprint hash n attempts = .ok f := by
      unfold jarmFingerprint
      apply jarmLoop_first_success hash attempts f (k - 1) n.toNat 1 (by omega)
      · intro j h1 h2
        exact hfail j h1 (by omega)
      · have : 1 + (k - 1) = k := by omega
        rw [this]
        exact hok
    refine ⟨hres, ?_⟩
    rw [hres]
    intro h
    cases h
  · intro hfail
    unfold jarmFingerprint
    apply jarmLoop_all_fail
    intro j h1 h2
    exact hfail j h1 (by omega)
  · intro f h1 h2 h3
    simp only [jarmFingerprint, Int.toNat_ofNat, jarmLoop, h1, h2, h3]

/-- C8 at retry count 3 with two failed attempts and a successful third: the result is
the third attempt's hash. -/
theorem jarm_retries_whole_sequence_witness :
    (1 : Int) ≤ 3 ∧ jarmAttempt joinHash (twoFailuresThenSuccess 1) = none ∧
      jarmAttempt joinHash (twoFailuresThenSuccess 2) = none ∧
      jarmAttempt joinHash (twoFailuresThenSuccess 3) = some "c02b0303" ∧
      jarmFingerprint joinHash 3 twoFailuresThenSuccess = .ok "c02b0303" :=
  ⟨by decide, by decide, by decide, by decide,
    (jarm_retries_whole_sequence joinHash 3 twoFailuresThenSuccess (by decide)).2.2
      "c02b0303" (by decide) (by decide) (by decide)⟩

end Sslsearch
